import Mathlib

/-
  Verification development for the quora-backup repository
  (src/converter.py and src/crawler.py).

  The HTML DOM trees manipulated by converter.py are modelled as a nested
  inductive type; cleanup_tree, its helpers (get_text_content,
  getElementsByTagName, the embed-import logic, the image-download logic)
  and crawler.py's parse_quora_date are embedded as executable Lean
  functions.  Python exceptions are modelled with Except; the only
  exceptions that can escape the modelled code are ValueError and
  AttributeError, so the error type has those two constructors.
  The filesystem of the output directory is modelled as the list of
  filenames present; the network is modelled as an oracle saying whether
  fetching a given URL succeeds.  Warnings printed to stderr are counted.
-/

/-- A node of an xml.dom.minidom tree: a text node, an element node
(tag name, attributes in document order, children), or any other node
kind (comment, CDATA, ...), which converter.py treats as unexpected. -/
inductive DomNode where
  | text (data : String)
  | other
  | element (tag : String) (attrs : List (String × String)) (children : List DomNode)
deriving Repr

/-- childNodes of a node; text and comment nodes have no children. -/
def childrenOf : DomNode → List DomNode
  | .element _ _ cs => cs
  | _ => []

/-- Element.getAttribute: the attribute value, or the empty string when
the attribute is absent (minidom's behaviour). -/
def getAttr (attrs : List (String × String)) (k : String) : String :=
  match attrs.find? (fun p => p.1 = k) with
  | some p => p.2
  | none => ""

/-- Element.setAttribute: replace the value in place when the key is
present, otherwise append the new attribute. -/
def setAttr : List (String × String) → String → String → List (String × String)
  | [], k, v => [(k, v)]
  | p :: rest, k, v => if p.1 = k then (k, v) :: rest else p :: setAttr rest k v

/-- Python's substring test (the expression pat in s for strings). -/
def hasSub (s pat : String) : Bool :=
  s.data.tails.any (fun t => pat.data.isPrefixOf t)

/-- Python's str.startswith. -/
def pyStartsWith (s pre : String) : Bool :=
  pre.data.isPrefixOf s.data

/-- Python's str.endswith. -/
def pyEndsWith (s suf : String) : Bool :=
  suf.data.isSuffixOf s.data

/-- The two exception classes that can escape the modelled converter
code paths: ValueError (raised explicitly) and AttributeError (attribute
access on None or on a node without that attribute). -/
inductive CErr where
  | valueError
  | attributeError
deriving Repr, DecidableEq

/-- The runtime environment of converter.py: the no_download flag,
the network (does fetching this URL succeed), and the html5lib parser
used for embed fragments (returns the documentElement of the parsed
fragment; html5lib is error-tolerant and always yields a document). -/
structure Env where
  no_download : Bool
  netOk : String → Bool
  parseEmbed : String → DomNode

/-- get_text_content (converter.py lines 22-27): concatenation of the
data of the direct text-node children. -/
def get_text_content (children : List DomNode) : String :=
  children.foldl
    (fun acc n =>
      match n with
      | .text d => acc ++ d
      | _ => acc)
    ""

mutual
/-- Element.getElementsByTagName restricted to one subtree: the node
itself when it is an element with the given tag, followed by its
matching descendants in document (preorder) order. -/
def getElemsNode (tag : String) : DomNode → List DomNode
  | .text _ => []
  | .other => []
  | .element t a cs =>
    (if t = tag then [DomNode.element t a cs] else []) ++ getElemsList tag cs

/-- Element.getElementsByTagName over a list of subtrees: all descendant
elements with the given tag, in document (preorder) order; the receiving
element itself is not included, so the search starts from its children. -/
def getElemsList (tag : String) : List DomNode → List DomNode
  | [] => []
  | n :: rest => getElemsNode tag n ++ getElemsList tag rest
end

/-- The text of a block code element (converter.py lines 173-180):
each descendant div is one line, a line is the concatenation of the
text content of the line's descendant spans, lines joined by newline. -/
def blockCodeText (children : List DomNode) : String :=
  let divs := getElemsList "div" children
  let lines := divs.map
    (fun d =>
      match d with
      | .element _ _ cs =>
        String.join ((getElemsList "span" cs).map
          (fun s =>
            match s with
            | .element _ _ scs => get_text_content scs
            | _ => ""))
      | _ => "")
  String.intercalate "\n" lines

/-- The embed-import logic (converter.py lines 61-75): parse the
data-embed fragment, take documentElement.childNodes[1].firstChild,
require it to be an iframe element, import it shallowly, prefix a
protocol-relative src with http:, and force width 525 and height 295.
Any structural deviation (missing body, missing first child, non-element
first child, wrong tag) is a failure, returned as none; the caller's
except-Exception handler turns it into a verbatim copy. -/
def importEmbed (env : Env) (html : String) : Option DomNode :=
  match (childrenOf (env.parseEmbed html))[1]? with
  | none => none
  | some body =>
    match (childrenOf body).head? with
    | none => none
    | some iframe =>
      match iframe with
      | .element t iattrs _ =>
        if t = "iframe" then
          let s := getAttr iattrs "src"
          let a1 := if pyStartsWith s "//" then setAttr iattrs "src" ("http:" ++ s) else iattrs
          some (.element "iframe" (setAttr (setAttr a1 "width" "525") "height" "295") [])
        else none
      | _ => none

/-- The filename-deriving regex search of converter.py line 122:
re.search for a slash followed by a nonempty run of characters that are
neither slash nor question mark, the run ending at a question mark or at
the end of the string; the leftmost such match wins. -/
def deriveFromPos : List Char → Option String
  | [] => none
  | c :: rest =>
    if c = '/' then
      let seg := rest.takeWhile (fun ch => ch != '/' && ch != '?')
      if seg.isEmpty then
        deriveFromPos rest
      else
        match (rest.drop seg.length).head? with
        | none => some (String.mk seg)
        | some c2 => if c2 = '?' then some (String.mk seg) else deriveFromPos rest
    else
      deriveFromPos rest

/-- The filename derived from an image URL (converter.py lines 122-125),
none when the regex does not match (the ValueError path). -/
def deriveFilename (src : String) : Option String :=
  deriveFromPos src.data

/-- The final local filename (converter.py lines 122-127): the derived
name, with .png appended when the name does not already end in .png. -/
def derivedPngName (src : String) : Option String :=
  (deriveFilename src).map
    (fun f0 => if pyEndsWith f0 ".png" then f0 else f0 ++ ".png")

/-- Result of one image-fetch attempt: the final value of the img src
attribute, the resulting output-directory contents, whether a network
fetch was issued, and whether a warning was printed. -/
structure FetchOut where
  src : String
  fs : List String
  netCalled : Bool
  warned : Bool
deriving Repr

/-- The image-download logic of converter.py lines 121-164: derive the
local filename (ValueError and a warning when the regex fails, src left
unchanged); exclusively create the file (EEXIST means the image was
already saved: return the existing filename without fetching); fetch the
URL over the network and write the body; on a fetch or write failure
close and delete the partially-created file, print a warning and leave
src pointing at the remote URL. -/
def fetch_image (netOk : String → Bool) (fs : List String) (src : String) : FetchOut :=
  match derivedPngName src with
  | none => ⟨src, fs, false, true⟩
  | some filename =>
    if fs.contains filename then
      ⟨filename, fs, false, false⟩
    else if netOk src then
      ⟨filename, filename :: fs, true, false⟩
    else
      ⟨src, fs, true, true⟩

/-- The tags converter.py line 52 passes through structurally. -/
def structuralTags : List String :=
  ["b", "i", "u", "h2", "ol", "ul", "li", "blockquote", "wbr"]

mutual
/-- The body of the for-loop of cleanup_tree (converter.py lines 41-190)
for one child of the source node: the list of nodes appended to dest,
the resulting output-directory contents and the number of warnings, or
the exception escaping the loop body.  The branches, in source order:
text nodes are copied; non-text non-element nodes raise ValueError;
br and hr are shallow-copied with their attributes; the structural tags
are rebuilt without attributes and recursed into; a non-empty data-embed
attribute goes through importEmbed with verbatim-copy fallback; a class
containing inline_codeblock becomes a code element built from
child.firstChild.firstChild, where a missing child or a tagName access
on a non-element raises AttributeError, which the except-ValueError
handler does not catch, while a first grandchild element that is not a
span raises ValueError and falls back to a verbatim copy; a class
containing ContentFooter or hidden is dropped; span and div wrappers are
flattened; a builds a fresh anchor with only href, site-relative hrefs
prefixed with the Quora origin; img builds a fresh image with only src
(the element's own src for math images, master_src otherwise) and alt,
then runs fetch_image unless no_download; a class containing
codeblocktable becomes a pre-code block; anything else warns and is
copied verbatim. -/
def cleanup_child (env : Env) (child : DomNode) (fs : List String) :
    Except CErr (List DomNode × List String × Nat) :=
  match child with
  | .text s => .ok ([.text s], fs, 0)
  | .other => .error .valueError
  | .element tag attrs children =>
    if tag = "br" ∨ tag = "hr" then
      .ok ([.element tag attrs []], fs, 0)
    else if structuralTags.contains tag then
      match cleanup_tree env children fs with
      | .error e => .error e
      | .ok (ns, fs1, w1) => .ok ([.element tag [] ns], fs1, w1)
    else if getAttr attrs "data-embed" ≠ "" then
      match importEmbed env (getAttr attrs "data-embed") with
      | some n => .ok ([n], fs, 0)
      | none => .ok ([.element tag attrs children], fs, 1)
    else if hasSub (getAttr attrs "class") "inline_codeblock" then
      match children.head? with
      | none => .error .attributeError
      | some c0 =>
        match (childrenOf c0).head? with
        | none => .error .attributeError
        | some sp =>
          match sp with
          | .element stag _ scs =>
            if stag = "span" then
              .ok ([.element "code" [] [.text (get_text_content scs)]], fs, 0)
            else
              .ok ([.element tag attrs children], fs, 1)
          | _ => .error .attributeError
    else if hasSub (getAttr attrs "class") "ContentFooter" ∨
            hasSub (getAttr attrs "class") "hidden" then
      .ok ([], fs, 0)
    else if tag = "span" ∨ tag = "div" then
      cleanup_tree env children fs
    else if tag = "a" then
      let href := getAttr attrs "href"
      let href2 := if pyStartsWith href "/" then "http://quora.com" ++ href else href
      match cleanup_tree env children fs with
      | .error e => .error e
      | .ok (ns, fs1, w1) => .ok ([.element "a" [("href", href2)] ns], fs1, w1)
    else if tag = "img" then
      let isMath := hasSub (getAttr attrs "class") "math"
      let src := if isMath then getAttr attrs "src" else getAttr attrs "master_src"
      let alt := getAttr attrs "alt"
      if env.no_download then
        .ok ([.element "img" [("src", src), ("alt", alt)] []], fs, 0)
      else
        let r := fetch_image env.netOk fs src
        .ok ([.element "img" [("src", r.src), ("alt", alt)] []], r.fs,
             if r.warned then 1 else 0)
    else if hasSub (getAttr attrs "class") "codeblocktable" then
      .ok ([.element "pre" [] [.element "code" [] [.text (blockCodeText children)]]], fs, 0)
    else
      .ok ([.element tag attrs children], fs, 1)

/-- cleanup_tree (converter.py lines 40-190) on the child list of the
source node: processes the children in order, threading the output
directory state and accumulating appended nodes and warnings; an
exception raised for one child propagates (no handler wraps the
recursive calls). -/
def cleanup_tree (env : Env) (l : List DomNode) (fs : List String) :
    Except CErr (List DomNode × List String × Nat) :=
  match l with
  | [] => .ok ([], fs, 0)
  | c :: rest =>
    match cleanup_child env c fs with
    | .error e => .error e
    | .ok (ns, fs1, w1) =>
      match cleanup_tree env rest fs1 with
      | .error e => .error e
      | .ok (ms, fs2, w2) => .ok (ns ++ ms, fs2, w1 + w2)
end

example :
    cleanup_tree ⟨true, fun _ => false, fun _ => .other⟩
      [.text "hello", .element "br" [] []] [] =
      .ok ([.text "hello", .element "br" [] []], [], 0) := rfl

/-- The English day-of-week abbreviations, index matching Python's
tm_wday (Monday is 0). -/
def days_of_week : List String :=
  ["Mon", "Tue", "Wed", "Thu", "Fri", "Sat", "Sun"]

/-- The English month abbreviations, index 0 for January. -/
def months_of_year : List String :=
  ["Jan", "Feb", "Mar", "Apr", "May", "Jun", "Jul", "Aug", "Sep", "Oct", "Nov", "Dec"]

/-- The whitespace characters stripped by Python's str.strip. -/
def pyIsSpace (c : Char) : Bool :=
  c = ' ' ∨ c = '\t' ∨ c = '\n' ∨ c = '\r' ∨ c.toNat = 11 ∨ c.toNat = 12

/-- Python's str.strip. -/
def pyStrip (s : String) : String :=
  String.mk (((s.data.dropWhile pyIsSpace).reverse.dropWhile pyIsSpace).reverse)

/-- The tail component of Python's str.partition: everything after the
first occurrence of the separator, empty when the separator is absent. -/
def partitionTail : List Char → List Char → List Char
  | [], _ => []
  | c :: rest, sep =>
    if sep.isPrefixOf (c :: rest) then (c :: rest).drop sep.length
    else partitionTail rest sep

/-- Numeric value of a run of decimal digits. -/
def digitsVal (l : List Char) : Nat :=
  l.foldl (fun a c => a * 10 + (c.toNat - 48)) 0

/-- Full match of a regex of the form digits-then-literal-suffix
anchored at both ends: the maximal leading digit run must be nonempty
and the remainder must equal the suffix exactly. -/
def matchNumSuffix (l : List Char) (suf : List Char) : Option Nat :=
  let ds := l.takeWhile Char.isDigit
  if ds.isEmpty then none
  else if l.drop ds.length = suf then some (digitsVal ds) else none

/-- Full match of the day-month pattern (digits, one space, a month
abbreviation, end of string): day value and 0-based month index. -/
def matchDayMonth (l : List Char) : Option (Nat × Nat) :=
  let ds := l.takeWhile Char.isDigit
  if ds.isEmpty then none
  else
    match l.drop ds.length with
    | ' ' :: rest =>
      let i := months_of_year.indexOf (String.mk rest)
      if i < 12 then some (digitsVal ds, i) else none
    | _ => none

/-- Full match of the day-month-year pattern (digits, space, month
abbreviation, space, digits, end of string): the raw day digit run,
the 0-based month index, and the raw year digit run.  The raw runs are
kept because the strptime re-parse constrains their shapes. -/
def matchDayMonthYear (l : List Char) : Option (List Char × Nat × List Char) :=
  let ds := l.takeWhile Char.isDigit
  if ds.isEmpty then none
  else
    match l.drop ds.length with
    | ' ' :: rest =>
      let i := months_of_year.indexOf (String.mk (rest.take 3))
      if i < 12 then
        match rest.drop 3 with
        | ' ' :: rest2 =>
          let ys := rest2.takeWhile Char.isDigit
          if ys.isEmpty then none
          else if rest2.drop ys.length = [] then some (ds, i, ys) else none
        | _ => none
      else none
    | _ => none

/-- The fields of a time.struct_time that crawler.py reads: year, month
(1-based), day of month, and day of week (Monday is 0). -/
structure Tm where
  tm_year : Int
  tm_mon : Int
  tm_mday : Int
  tm_wday : Int
deriving Repr, DecidableEq

/-- Proleptic-Gregorian civil date from days since the Unix epoch
(the standard days-to-civil algorithm); all intermediate divisions act
on nonnegative values, so floor division is exact. -/
def civilFromDays (z0 : Int) : Int × Int × Int :=
  let z := z0 + 719468
  let era := z.fdiv 146097
  let doe := z - era * 146097
  let yoe := (doe - doe.fdiv 1460 + doe.fdiv 36524 - doe.fdiv 146096).fdiv 365
  let y := yoe + era * 400
  let doy := doe - (365 * yoe + yoe.fdiv 4 - yoe.fdiv 100)
  let mp := (5 * doy + 2).fdiv 153
  let d := doy - (153 * mp + 2).fdiv 5 + 1
  let m := mp + (if mp < 10 then 3 else -9)
  (y + (if m ≤ 2 then 1 else 0), m, d)

/-- time.gmtime restricted to the fields crawler.py reads.  Day zero,
1970-01-01, was a Thursday, so tm_wday is (days + 3) mod 7 with Monday
as 0.  Python's platform range limits on gmtime are not modelled; the
function is total here. -/
def gmtime (t : Int) : Tm :=
  let days := t.fdiv 86400
  let c := civilFromDays days
  ⟨c.1, c.2.1, c.2.2, (days + 3).emod 7⟩

/-- A two-digit zero-padded decimal rendering, as Python's percent-02d. -/
def pad2 (n : Int) : String :=
  if n < 10 then "0" ++ toString n else toString n

/-- The result format of parse_quora_date (crawler.py line 70). -/
def formatDate (y m d : Int) : String :=
  toString y ++ "-" ++ pad2 m ++ "-" ++ pad2 d

/-- Gregorian leap-year rule, as datetime uses. -/
def isLeapYear (y : Int) : Bool :=
  (y.emod 4 = 0 ∧ y.emod 100 ≠ 0) ∨ y.emod 400 = 0

/-- Length of a month, as datetime uses to validate a date. -/
def daysInMonth (y m : Int) : Int :=
  if m = 2 then (if isLeapYear y then 29 else 28)
  else if m = 4 ∨ m = 6 ∨ m = 9 ∨ m = 11 then 30
  else 31

/-- The walk-backward loops of crawler.py lines 45-64: try offsets
of one day at a time, up to the fuel bound, returning the first
gmtime result satisfying the predicate. -/
def findBackTm (origin : Int) (pred : Tm → Bool) : Nat → Nat → Option Tm
  | 0, _ => none
  | fuel + 1, offset =>
    let tm := gmtime (origin - 86400 * (offset : Int))
    if pred tm then some tm else findBackTm origin pred fuel (offset + 1)

/-- The shape constraints time.strptime places on the day and year
tokens of the d-b-Y format: the day token is one or two characters with
value 1 to 31 (the %d character class), the year token is exactly four
digits (the %Y character class); afterwards _strptime builds a
datetime.date, which rejects year zero and a day beyond the month
length.  Any violation raises ValueError. -/
def strptimeDBYOk (ds : List Char) (mon : Int) (ys : List Char) : Bool :=
  ds.length ≤ 2 ∧ 1 ≤ digitsVal ds ∧ digitsVal ds ≤ 31 ∧
  ys.length = 4 ∧ 1 ≤ digitsVal ys ∧
  (digitsVal ds : Int) ≤ daysInMonth (digitsVal ys) mon

/-- parse_quora_date (crawler.py lines 21-70): take the text after the
first occurrence of the Added separator, strip it, and try the fixed
grammar in the source's order (just-now and am-pm first, then minutes
ago, hours ago, a weekday name resolved by walking back at most 7 days,
a day-month resolved by walking back at most 366 days, and a full
day-month-year re-parsed with strptime).  Every failure is a ValueError,
modelled as the error branch with the message kind. -/
def parse_quora_date (origin : Int) (quora_str : String) : Except String String :=
  let date_str := pyStrip (String.mk (partitionTail quora_str.data "Added ".data))
  if date_str = "" then
    .error "does not appear to indicate when answer was added"
  else
    let l := date_str.data
    let m1 := matchNumSuffix l "m ago".data
    let m2 := matchNumSuffix l "h ago".data
    let m4 := matchDayMonth l
    let m5 := matchDayMonthYear l
    let m6 := (matchNumSuffix l "am".data).orElse (fun _ => matchNumSuffix l "pm".data)
    if date_str = "just now" ∨ m6.isSome then
      let tm := gmtime origin
      .ok (formatDate tm.tm_year tm.tm_mon tm.tm_mday)
    else
      match m1 with
      | some n =>
        let tm := gmtime (origin - 60 * (n : Int))
        .ok (formatDate tm.tm_year tm.tm_mon tm.tm_mday)
      | none =>
        match m2 with
        | some n =>
          let tm := gmtime (origin - 3600 * (n : Int))
          .ok (formatDate tm.tm_year tm.tm_mon tm.tm_mday)
        | none =>
          if days_of_week.contains date_str then
            match findBackTm origin
                (fun tm => tm.tm_wday == (days_of_week.indexOf date_str : Int)) 7 1 with
            | some tm => .ok (formatDate tm.tm_year tm.tm_mon tm.tm_mday)
            | none => .error "date is invalid"
          else
            match m4 with
            | some dm =>
              match findBackTm origin
                  (fun tm => tm.tm_mon == ((dm.2 : Int) + 1) &&
                             tm.tm_mday == (dm.1 : Int)) 366 1 with
              | some tm => .ok (formatDate tm.tm_year tm.tm_mon tm.tm_mday)
              | none => .error "date is invalid"
            | none =>
              match m5 with
              | some dmy =>
                if strptimeDBYOk dmy.1 ((dmy.2.1 : Int) + 1) dmy.2.2 then
                  .ok (formatDate (digitsVal dmy.2.2) ((dmy.2.1 : Int) + 1) (digitsVal dmy.1))
                else
                  .error "time data does not match format"
              | none => .error "date could not be interpreted"

/-- The recognized grammar of date labels: the label, after the Added
separator and stripping, is nonempty and matches one of the seven
patterns of crawler.py lines 28-34. -/
def inGrammar (quora_str : String) : Bool :=
  let date_str := pyStrip (String.mk (partitionTail quora_str.data "Added ".data))
  let l := date_str.data
  date_str ≠ "" ∧
  (date_str = "just now" ∨
   (matchNumSuffix l "m ago".data).isSome ∨
   (matchNumSuffix l "h ago".data).isSome ∨
   days_of_week.contains date_str = true ∨
   (matchDayMonth l).isSome ∨
   (matchDayMonthYear l).isSome ∨
   ((matchNumSuffix l "am".data).orElse (fun _ => matchNumSuffix l "pm".data)).isSome)

example : parse_quora_date 1583841600 "Added 2h ago" = .ok "2020-03-10" := rfl
example : parse_quora_date 1583841600 "2h ago" =
    .error "does not appear to indicate when answer was added" := rfl
example : parse_quora_date 1583841600 "Added Wed" = .ok "2020-03-04" := rfl

/-- Following the spec's words: a retained reference is an absolute URL
when it carries an explicit http or https scheme. -/
def isAbsoluteUrl (s : String) : Bool :=
  pyStartsWith s "http://" || pyStartsWith s "https://"

/-- An attribute list whose class value carries one of the two
footer/hidden markers that converter.py line 94 skips. -/
def hasMarkerClass (attrs : List (String × String)) : Bool :=
  hasSub (getAttr attrs "class") "ContentFooter" || hasSub (getAttr attrs "class") "hidden"

mutual
/-- The destination-side invariant claimed by the spec, on one node:
no element carries a footer/hidden class marker, every anchor href and
every image src is an absolute URL, and no non-text non-element node
occurs; recursively for the children. -/
def okOut : DomNode → Bool
  | .text _ => true
  | .other => false
  | .element tag attrs children =>
    !hasMarkerClass attrs &&
    (if tag = "a" then isAbsoluteUrl (getAttr attrs "href") else true) &&
    (if tag = "img" then isAbsoluteUrl (getAttr attrs "src") else true) &&
    okOutList children

/-- okOut on every node of a list. -/
def okOutList : List DomNode → Bool
  | [] => true
  | n :: rest => okOut n && okOutList rest
end

mutual
/-- The source subtrees for which the spec's destination invariant does
hold on the code: every node is handled by a non-fallback, non-raising
branch of cleanup_tree.  Following the source's branch order: text nodes
are fine; other node kinds raise; br and hr must not carry a marker
class (their shallow copy keeps attributes); structural tags recurse;
elements with a data-embed or an inline_codeblock marker are excluded
(their outputs are imported or copied verbatim); marker-classed elements
are dropped, so their contents are irrelevant; span and div recurse;
anchors need a site-relative or absolute href and good children; images
need an absolute chosen source (own src for math, master_src otherwise);
block-code elements are fine; anything else is the verbatim-copy
fallback and is excluded. -/
def goodNode : DomNode → Bool
  | .text _ => true
  | .other => false
  | .element tag attrs children =>
    if tag = "br" ∨ tag = "hr" then
      !hasMarkerClass attrs
    else if structuralTags.contains tag then
      goodList children
    else if getAttr attrs "data-embed" ≠ "" then
      false
    else if hasSub (getAttr attrs "class") "inline_codeblock" then
      false
    else if hasSub (getAttr attrs "class") "ContentFooter" ∨
            hasSub (getAttr attrs "class") "hidden" then
      true
    else if tag = "span" ∨ tag = "div" then
      goodList children
    else if tag = "a" then
      (pyStartsWith (getAttr attrs "href") "/" || isAbsoluteUrl (getAttr attrs "href")) &&
      goodList children
    else if tag = "img" then
      isAbsoluteUrl (if hasSub (getAttr attrs "class") "math" then
                       getAttr attrs "src"
                     else getAttr attrs "master_src")
    else if hasSub (getAttr attrs "class") "codeblocktable" then
      true
    else
      false

/-- goodNode on every node of a list. -/
def goodList : List DomNode → Bool
  | [] => true
  | n :: rest => goodNode n && goodList rest
end

/-- A concrete environment for witnesses: downloading disabled, the
network always failing, the embed parser returning a non-element. -/
def env0 : Env := ⟨true, fun _ => false, fun _ => .other⟩

theorem isPrefixOf_append_self {α : Type} [BEq α] [LawfulBEq α] :
    ∀ (l t : List α), l.isPrefixOf (l ++ t) = true := by
  intro l t
  induction l with
  | nil => simp [List.isPrefixOf]
  | cons a as ih => simp [List.isPrefixOf, ih]

theorem pyEndsWith_append_self (s t : String) : pyEndsWith (s ++ t) t = true := by
  show (t.data.isSuffixOf (s ++ t).data) = true
  rw [String.data_append]
  show (t.data.reverse.isPrefixOf (s.data ++ t.data).reverse) = true
  rw [List.reverse_append]
  exact isPrefixOf_append_self t.data.reverse s.data.reverse

theorem isAbsoluteUrl_quora_append (s : String) :
    isAbsoluteUrl ("http://quora.com" ++ s) = true := by
  have h : pyStartsWith ("http://quora.com" ++ s) "http://" = true := by
    show ("http://".data.isPrefixOf (("http://quora.com" ++ s).data)) = true
    rw [String.data_append]
    show ("http://".data.isPrefixOf ("http://quora.com".data ++ s.data)) = true
    simp [List.isPrefixOf]
  simp [isAbsoluteUrl, h]

theorem okOutList_append (xs ys : List DomNode) :
    okOutList (xs ++ ys) = (okOutList xs && okOutList ys) := by
  induction xs with
  | nil => simp [okOutList]
  | cons n rest ih => simp [okOutList, ih, Bool.and_assoc]

theorem getAttr_setAttr_self (a : List (String × String)) (k v : String) :
    getAttr (setAttr a k v) k = v := by
  induction a with
  | nil => simp [setAttr, getAttr, List.find?]
  | cons p rest ih =>
    by_cases hp : p.1 = k
    · simp [setAttr, hp, getAttr, List.find?]
    · simp only [setAttr, if_neg hp]
      simpa [getAttr, List.find?, hp] using ih

theorem getAttr_setAttr_ne (a : List (String × String)) (k k' v : String)
    (h : k' ≠ k) : getAttr (setAttr a k' v) k = getAttr a k := by
  induction a with
  | nil => simp [setAttr, getAttr, List.find?, h, Ne.symm h]
  | cons p rest ih =>
    by_cases hp : p.1 = k'
    · have hpk : ¬(p.1 = k) := by rw [hp]; exact fun hh => h hh
      simp [setAttr, hp, getAttr, List.find?, hpk, h, Ne.symm h]
    · by_cases hpk : p.1 = k
      · simp [setAttr, hp, getAttr, List.find?, hpk, h, Ne.symm h]
      · simp only [setAttr, if_neg hp]
        simpa [getAttr, List.find?, hpk] using ih

theorem hasMarkerClass_nil : hasMarkerClass [] = false := rfl

theorem hasMarkerClass_href (v : String) : hasMarkerClass [("href", v)] = false := rfl

theorem hasMarkerClass_img (v w : String) :
    hasMarkerClass [("src", v), ("alt", w)] = false := rfl

theorem getAttr_href (v : String) : getAttr [("href", v)] "href" = v := rfl

theorem getAttr_img_src (v w : String) :
    getAttr [("src", v), ("alt", w)] "src" = v := rfl

mutual
theorem c1_node_aux (env : Env) (henv : env.no_download = true) :
    ∀ n : DomNode, goodNode n = true →
      ∀ fs, ∃ out fs2 w,
        cleanup_child env n fs = .ok (out, fs2, w) ∧ okOutList out = true := by
  intro n
  match n with
  | .text s =>
    intro _ fs
    exact ⟨[.text s], fs, 0, rfl, rfl⟩
  | .other =>
    intro h fs
    exact absurd h (by simp [goodNode])
  | .element tag attrs cs =>
    intro h fs
    simp only [goodNode] at h
    split at h
    next hA =>
      refine ⟨[.element tag attrs []], fs, 0, ?_, ?_⟩
      · simp only [cleanup_child]
        rw [if_pos hA]
      · rcases hA with rfl | rfl <;> simp [okOutList, okOut, h]
    next hA =>
    split at h
    next hB =>
      obtain ⟨ns, fs1, w1, heq, hok⟩ := c1_list_aux env henv cs h fs
      refine ⟨[.element tag [] ns], fs1, w1, ?_, ?_⟩
      · simp only [cleanup_child]
        rw [if_neg hA, if_pos hB, heq]
      · have htags : tag = "b" ∨ tag = "i" ∨ tag = "u" ∨ tag = "h2" ∨ tag = "ol" ∨
            tag = "ul" ∨ tag = "li" ∨ tag = "blockquote" ∨ tag = "wbr" := by
          simpa [structuralTags] using hB
        rcases htags with rfl | rfl | rfl | rfl | rfl | rfl | rfl | rfl | rfl <;>
          simp [okOutList, okOut, hasMarkerClass_nil, hok]
    next hB =>
    split at h
    next hC =>
      exact absurd h (by simp)
    next hC =>
    split at h
    next hD =>
      exact absurd h (by simp)
    next hD =>
    split at h
    next hE =>
      refine ⟨[], fs, 0, ?_, rfl⟩
      simp only [cleanup_child]
      rw [if_neg hA, if_neg hB, if_neg hC, if_neg hD, if_pos hE]
    next hE =>
    split at h
    next hF =>
      obtain ⟨ns, fs1, w1, heq, hok⟩ := c1_list_aux env henv cs h fs
      refine ⟨ns, fs1, w1, ?_, hok⟩
      simp only [cleanup_child]
      rw [if_neg hA, if_neg hB, if_neg hC, if_neg hD, if_neg hE, if_pos hF]
      exact heq
    next hF =>
    split at h
    next hG =>
      rw [Bool.and_eq_true] at h
      obtain ⟨ns, fs1, w1, heq, hok⟩ := c1_list_aux env henv cs h.2 fs
      by_cases hrel : pyStartsWith (getAttr attrs "href") "/" = true
      · refine ⟨[.element "a"
            [("href", "http://quora.com" ++ getAttr attrs "href")] ns], fs1, w1, ?_, ?_⟩
        · simp only [cleanup_child]
          rw [if_neg hA, if_neg hB, if_neg hC, if_neg hD, if_neg hE, if_neg hF, if_pos hG]
          simp only [heq, hrel, if_true]
        · simp [okOutList, okOut, hasMarkerClass_href, getAttr_href,
                isAbsoluteUrl_quora_append, hok]
      · have habs : isAbsoluteUrl (getAttr attrs "href") = true := by
          rcases Bool.or_eq_true_iff.mp h.1 with h1 | h1
          · exact absurd h1 hrel
          · exact h1
        refine ⟨[.element "a" [("href", getAttr attrs "href")] ns], fs1, w1, ?_, ?_⟩
        · simp only [cleanup_child]
          rw [if_neg hA, if_neg hB, if_neg hC, if_neg hD, if_neg hE, if_neg hF, if_pos hG]
          simp [heq, hrel]
        · simp [okOutList, okOut, hasMarkerClass_href, getAttr_href, habs, hok]
    next hG =>
    split at h
    next hH =>
      refine ⟨[.element "img"
          [("src", if hasSub (getAttr attrs "class") "math" then
              getAttr attrs "src" else getAttr attrs "master_src"),
           ("alt", getAttr attrs "alt")] []], fs, 0, ?_, ?_⟩
      · simp only [cleanup_child]
        rw [if_neg hA, if_neg hB, if_neg hC, if_neg hD, if_neg hE, if_neg hF, if_neg hG,
            if_pos hH]
        simp only [henv, if_true]
      · simp [okOutList, okOut, hasMarkerClass_img, getAttr_img_src, h]
    next hH =>
    split at h
    next hI =>
      refine ⟨[.element "pre" [] [.element "code" []
          [.text (blockCodeText cs)]]], fs, 0, ?_, ?_⟩
      · simp only [cleanup_child]
        rw [if_neg hA, if_neg hB, if_neg hC, if_neg hD, if_neg hE, if_neg hF, if_neg hG,
            if_neg hH, if_pos hI]
      · simp [okOutList, okOut, hasMarkerClass_nil]
    next hI =>
      exact absurd h (by simp)

theorem c1_list_aux (env : Env) (henv : env.no_download = true) :
    ∀ l : List DomNode, goodList l = true →
      ∀ fs, ∃ out fs2 w,
        cleanup_tree env l fs = .ok (out, fs2, w) ∧ okOutList out = true := by
  intro l
  match l with
  | [] =>
    intro _ fs
    exact ⟨[], fs, 0, rfl, rfl⟩
  | c :: rest =>
    intro h fs
    simp only [goodList, Bool.and_eq_true] at h
    obtain ⟨ns, fs1, w1, heq1, hok1⟩ := c1_node_aux env henv c h.1 fs
    obtain ⟨ms, fs2, w2, heq2, hok2⟩ := c1_list_aux env henv rest h.2 fs1
    refine ⟨ns ++ ms, fs2, w1 + w2, ?_, ?_⟩
    · simp [cleanup_tree, heq1, heq2]
    · rw [okOutList_append, hok1, hok2]
      rfl
end

/-- Claim C1, counterexample: the spec's destination invariant fails as
stated.  An unrecognized element (tag video) is copied verbatim,
retaining a hidden-classed descendant, and an anchor whose href is
neither site-relative nor absolute keeps its relative href; the
destination therefore violates the invariant predicate. -/
theorem c1_counterexample :
    cleanup_tree env0
      [DomNode.element "video" [] [DomNode.element "div" [("class", "hidden")] []],
       DomNode.element "a" [("href", "foo")] []] [] =
      .ok ([DomNode.element "video" [] [DomNode.element "div" [("class", "hidden")] []],
            DomNode.element "a" [("href", "foo")] []], [], 1) ∧
    okOutList
      [DomNode.element "video" [] [DomNode.element "div" [("class", "hidden")] []],
       DomNode.element "a" [("href", "foo")] []] = false :=
  ⟨rfl, rfl⟩

/-- Claim C1 (amended): for source subtrees in which every element is
handled by a non-fallback, non-raising rule of cleanup_tree (no embed
or inline-code or unrecognized elements, br and hr free of marker
classes, anchor hrefs site-relative or absolute, chosen image sources
absolute) and with image downloading disabled, the destination contains
no footer/hidden-classed element and every retained anchor href and
image src is an absolute URL; nodes reached through the verbatim-copy
fallback and locally-rewritten image sources are exempt. -/
theorem c1_amended (env : Env) (l : List DomNode) (fs : List String)
    (henv : env.no_download = true) (hgood : goodList l = true) :
    ∃ out fs2 w, cleanup_tree env l fs = .ok (out, fs2, w) ∧ okOutList out = true :=
  c1_list_aux env henv l hgood fs

/-- The concrete source subtree of the C1 witness. -/
def c1WitnessInput : List DomNode :=
  [DomNode.element "b" [] [DomNode.text "x"],
   DomNode.element "a" [("href", "/Brian-Bi")] [DomNode.text "link"],
   DomNode.element "div" [("class", "hidden ContentFooter")] [DomNode.other],
   DomNode.element "img" [("class", "math"), ("src", "http://quora.com/m.png")] []]

/-- Witness for the amended C1 at a concrete subtree. -/
theorem c1_amended_witness :
    env0.no_download = true ∧ goodList c1WitnessInput = true ∧
    ∃ out fs2 w, cleanup_tree env0 c1WitnessInput [] = .ok (out, fs2, w) ∧
      okOutList out = true :=
  ⟨rfl, rfl, c1_amended env0 c1WitnessInput [] rfl rfl⟩

/-- Claim C10: a child that is neither a text node nor an element node
(nodeType check at converter.py lines 46-48) raises ValueError, and no
handler in cleanup_tree catches it, so the error escapes the traversal
wherever such a child is reached. -/
theorem c10_theorem (env : Env) (fs : List String) (rest : List DomNode) :
    cleanup_tree env (DomNode.other :: rest) fs = .error .valueError := rfl

/-- Claim C3 (code bug): an inline_codeblock element whose structure
deviates from div-pre-span raises AttributeError, which the
except-ValueError handler at converter.py line 90 does not catch: with
no children at all, child.firstChild is None and the second firstChild
access fails; with a text node where the span is expected, the tagName
access fails.  Both escape cleanup_tree instead of warning and copying
verbatim. -/
theorem c3_bug :
    cleanup_tree env0 [DomNode.element "div" [("class", "inline_codeblock")] []] [] =
      .error .attributeError ∧
    cleanup_tree env0
      [DomNode.element "div" [("class", "inline_codeblock")]
        [DomNode.element "pre" [] [DomNode.text "x"]]] [] =
      .error .attributeError :=
  ⟨rfl, rfl⟩

/-- Claim C2, counterexample: a span carrying the codeblocktable class
marker is flattened by the wrapper rule (converter.py line 97), which
precedes the block-code rule (line 167) in the branch chain; no
pre-code element is emitted, contradicting the claimed priority of code
recognition over wrapper flattening. -/
theorem c2_counterexample :
    cleanup_tree env0
      [DomNode.element "span" [("class", "codeblocktable")]
        [DomNode.element "div" [] [DomNode.element "span" [] [DomNode.text "xy"]]]] [] =
      .ok ([DomNode.text "xy"], [], 0) ∧
    ([DomNode.text "xy"] ≠
      [DomNode.element "pre" [] [DomNode.element "code" [] [DomNode.text "xy"]]]) :=
  ⟨rfl, by simp⟩

/-- Claim C2 (amended): an element carrying the codeblocktable class
marker is classified as block code only when no earlier branch matches:
its tag is not br, hr, a structural tag, span, div, a or img, it has no
data-embed attribute, and its class carries no inline_codeblock,
ContentFooter or hidden marker.  Then cleanup_tree emits a pre-code
element whose text is the per-line concatenation of the contained text
runs joined by newlines.  A span or div carrying the marker is
flattened instead: wrapper flattening precedes block-code recognition. -/
theorem c2_amended (env : Env) (fs : List String) (tag : String)
    (attrs : List (String × String)) (cs : List DomNode)
    (hA : ¬(tag = "br" ∨ tag = "hr"))
    (hB : ¬(structuralTags.contains tag = true))
    (hC : ¬(getAttr attrs "data-embed" ≠ ""))
    (hD : ¬(hasSub (getAttr attrs "class") "inline_codeblock" = true))
    (hE : ¬(hasSub (getAttr attrs "class") "ContentFooter" = true ∨
            hasSub (getAttr attrs "class") "hidden" = true))
    (hF : ¬(tag = "span" ∨ tag = "div"))
    (hG : ¬(tag = "a"))
    (hH : ¬(tag = "img"))
    (hI : hasSub (getAttr attrs "class") "codeblocktable" = true) :
    cleanup_child env (.element tag attrs cs) fs =
      .ok ([.element "pre" [] [.element "code" [] [.text (blockCodeText cs)]]], fs, 0) := by
  simp only [cleanup_child]
  rw [if_neg hA, if_neg hB, if_neg hC, if_neg hD, if_neg hE, if_neg hF, if_neg hG,
      if_neg hH, if_pos hI]

/-- Witness for the amended C2: a table-tagged code block with two line
divs becomes a pre-code element whose text joins the lines. -/
theorem c2_amended_witness :
    cleanup_child env0
      (DomNode.element "table" [("class", "codeblocktable")]
        [DomNode.element "div" []
          [DomNode.element "span" [] [DomNode.text "ab"],
           DomNode.element "span" [] [DomNode.text "cd"]],
         DomNode.element "div" [] [DomNode.element "span" [] [DomNode.text "ef"]]]) [] =
      .ok ([DomNode.element "pre" []
        [DomNode.element "code" [] [DomNode.text "abcd\nef"]]], [], 0) :=
 by
  have h := c2_amended env0 [] "table" [("class", "codeblocktable")]
    [DomNode.element "div" []
      [DomNode.element "span" [] [DomNode.text "ab"],
       DomNode.element "span" [] [DomNode.text "cd"]],
     DomNode.element "div" [] [DomNode.element "span" [] [DomNode.text "ef"]]]
    (by decide) (by decide) (by decide) (by decide) (by decide) (by decide)
    (by decide) (by decide) (by decide)
  have hb : blockCodeText
      [DomNode.element "div" []
        [DomNode.element "span" [] [DomNode.text "ab"],
         DomNode.element "span" [] [DomNode.text "cd"]],
       DomNode.element "div" [] [DomNode.element "span" [] [DomNode.text "ef"]]] =
      "abcd\nef" := by decide
  rw [hb] at h
  exact h

/-- Claim C4, counterexample: a non-math img with a src attribute but no
master_src attribute is emitted with an empty src: converter.py line 112
reads master_src for every non-math image with no fallback to src,
contradicting the claimed fallback. -/
theorem c4_counterexample :
    cleanup_tree env0 [DomNode.element "img" [("src", "http://x/y.png")] []] [] =
      .ok ([DomNode.element "img" [("src", ""), ("alt", "")] []], [], 0) ∧
    ("" : String) ≠ "http://x/y.png" :=
  ⟨rfl, by decide⟩

/-- Claim C4 (amended): an img element reaching the image branch (no
data-embed, no inline_codeblock or footer/hidden class marker) is
emitted with exactly the two attributes src and alt, where src is the
element's own src attribute when its class contains the math marker and
the master_src attribute otherwise — empty when that attribute is
absent, with no fallback between the two (downloading disabled here;
with downloading enabled only the src value is further rewritten). -/
theorem c4_amended (env : Env) (fs : List String)
    (attrs : List (String × String)) (cs : List DomNode)
    (henv : env.no_download = true)
    (hC : ¬(getAttr attrs "data-embed" ≠ ""))
    (hD : ¬(hasSub (getAttr attrs "class") "inline_codeblock" = true))
    (hE : ¬(hasSub (getAttr attrs "class") "ContentFooter" = true ∨
            hasSub (getAttr attrs "class") "hidden" = true)) :
    cleanup_child env (.element "img" attrs cs) fs =
      .ok ([.element "img"
        [("src", if hasSub (getAttr attrs "class") "math" then
            getAttr attrs "src" else getAttr attrs "master_src"),
         ("alt", getAttr attrs "alt")] []], fs, 0) := by
  simp only [cleanup_child]
  simp [structuralTags, hC, hD, hE, henv]

/-- Witness for the amended C4: a math-classed image keeps its own src
and only the src and alt attributes survive. -/
theorem c4_amended_witness :
    cleanup_child env0
      (DomNode.element "img"
        [("class", "math"), ("src", "http://q/m.png"),
         ("master_src", "http://q/big.png"), ("alt", "f(x)")] []) [] =
      .ok ([DomNode.element "img"
        [("src", "http://q/m.png"), ("alt", "f(x)")] []], [], 0) :=
  c4_amended env0 []
    [("class", "math"), ("src", "http://q/m.png"),
     ("master_src", "http://q/big.png"), ("alt", "f(x)")] []
    rfl (by decide) (by decide) (by decide)

/-- Claim C6: image-fetch deduplication.  A first fetch of a URL whose
derived filename is not yet in the output directory downloads it and
creates the file; a second fetch with the same derived filename hits
the exclusive-create EEXIST path (converter.py lines 128-134), issues
no network call, and returns the existing filename. -/
theorem c6_theorem (netOk : String → Bool) (fs : List String) (src filename : String)
    (hd : derivedPngName src = some filename)
    (hnotin : fs.contains filename = false)
    (hnet : netOk src = true) :
    fetch_image netOk fs src = ⟨filename, filename :: fs, true, false⟩ ∧
    fetch_image netOk (filename :: fs) src = ⟨filename, filename :: fs, false, false⟩ := by
  have hmem : filename ∉ fs := by simpa using hnotin
  constructor
  · simp [fetch_image, hd, hmem, hnet]
  · simp [fetch_image, hd, List.contains_cons]

/-- Witness for C6 at a concrete URL and an empty output directory. -/
theorem c6_witness :
    fetch_image (fun _ => true) [] "http://x/a.png" = ⟨"a.png", ["a.png"], true, false⟩ ∧
    fetch_image (fun _ => true) ["a.png"] "http://x/a.png" =
      ⟨"a.png", ["a.png"], false, false⟩ :=
  c6_theorem (fun _ => true) [] "http://x/a.png" "a.png" (by decide) (by decide) rfl

/-- Claim C7: when the exclusive create succeeded (the filename was not
yet present) and the network fetch fails, the partially-created file is
removed (converter.py lines 145-152), so the resulting directory state
does not contain the filename, the failure is reported as a download
warning, and the img src is left at the original remote URL. -/
theorem c7_theorem (netOk : String → Bool) (fs : List String) (src filename : String)
    (hd : derivedPngName src = some filename)
    (hnotin : fs.contains filename = false)
    (hnet : netOk src = false) :
    fetch_image netOk fs src = ⟨src, fs, true, true⟩ ∧
    (fetch_image netOk fs src).fs.contains filename = false := by
  have hmem : filename ∉ fs := by simpa using hnotin
  have h1 : fetch_image netOk fs src = ⟨src, fs, true, true⟩ := by
    simp [fetch_image, hd, hmem, hnet]
  exact ⟨h1, by rw [h1]; exact hnotin⟩

/-- Witness for C7 at a concrete URL with a failing network. -/
theorem c7_witness :
    fetch_image (fun _ => false) [] "http://x/a.png" =
      ⟨"http://x/a.png", [], true, true⟩ ∧
    (fetch_image (fun _ => false) [] "http://x/a.png").fs.contains "a.png" = false :=
  c7_theorem (fun _ => false) [] "http://x/a.png" "a.png" (by decide) (by decide) rfl

/-- Claim C8, counterexample: a derived name carrying the recognized
image extension jpg is not left unchanged: converter.py line 126 tests
only for the png suffix, so photo.jpg becomes photo.jpg.png. -/
theorem c8_counterexample :
    derivedPngName "http://x/photo.jpg" = some "photo.jpg.png" ∧
    some "photo.jpg.png" ≠ some "photo.jpg" :=
  ⟨rfl, by decide⟩

/-- Claim C8 (amended): the derived filename always ends in .png, and it
equals the raw last path segment exactly when that segment already ends
in .png; a segment with any other extension gets .png appended as well. -/
theorem c8_amended (src f0 : String) (h : deriveFilename src = some f0) :
    ∃ f, derivedPngName src = some f ∧ pyEndsWith f ".png" = true ∧
      (f = f0 ↔ pyEndsWith f0 ".png" = true) := by
  by_cases hp : pyEndsWith f0 ".png" = true
  · exact ⟨f0, by simp [derivedPngName, h, hp], hp, by simp [hp]⟩
  · refine ⟨f0 ++ ".png", by simp [derivedPngName, h, hp], pyEndsWith_append_self f0 ".png", ?_⟩
    constructor
    · intro heq
      have hlen := congrArg String.length heq
      rw [String.length_append] at hlen
      have h4 : (".png" : String).length = 4 := rfl
      rw [h4] at hlen
      omega
    · intro hc
      exact absurd hc hp

/-- Witness for the amended C8: a segment with no extension. -/
theorem c8_amended_witness :
    ∃ f, derivedPngName "http://x/a" = some f ∧ pyEndsWith f ".png" = true ∧
      (f = "a" ↔ pyEndsWith "a" ".png" = true) :=
  c8_amended "http://x/a" "a" (by decide)

/-- Claim C5: for an element with a non-empty data-embed attribute
(reaching the embed branch, so not one of the earlier tag rules), when
the parsed fragment yields an iframe element at the expected position,
the appended iframe's width and height are forced to 525 and 295
irrespective of input and its src is prefixed with the http scheme
exactly when it was protocol-relative; when the fragment does not yield
an iframe there, a warning is emitted and a deep verbatim copy of the
original element is appended instead. -/
theorem c5_theorem (env : Env) (fs : List String) (tag : String)
    (attrs : List (String × String)) (cs : List DomNode)
    (hA : ¬(tag = "br" ∨ tag = "hr"))
    (hB : ¬(structuralTags.contains tag = true))
    (hne : getAttr attrs "data-embed" ≠ "") :
    (∀ body t iattrs ics,
      (childrenOf (env.parseEmbed (getAttr attrs "data-embed")))[1]? = some body →
      (childrenOf body).head? = some (DomNode.element t iattrs ics) →
      t = "iframe" →
      ∃ fattrs,
        cleanup_child env (.element tag attrs cs) fs =
          .ok ([DomNode.element "iframe" fattrs []], fs, 0) ∧
        getAttr fattrs "width" = "525" ∧
        getAttr fattrs "height" = "295" ∧
        getAttr fattrs "src" =
          (if pyStartsWith (getAttr iattrs "src") "//" = true then
            "http:" ++ getAttr iattrs "src" else getAttr iattrs "src")) ∧
    (importEmbed env (getAttr attrs "data-embed") = none →
      cleanup_child env (.element tag attrs cs) fs =
        .ok ([DomNode.element tag attrs cs], fs, 1)) := by
  constructor
  · intro body t iattrs ics h1 h2 ht
    subst ht
    have himp : importEmbed env (getAttr attrs "data-embed") =
        some (DomNode.element "iframe"
          (setAttr (setAttr
            (if pyStartsWith (getAttr iattrs "src") "//" = true then
              setAttr iattrs "src" ("http:" ++ getAttr iattrs "src") else iattrs)
            "width" "525") "height" "295") []) := by
      simp only [importEmbed, h1, h2]
      simp
    refine ⟨setAttr (setAttr
        (if pyStartsWith (getAttr iattrs "src") "//" = true then
          setAttr iattrs "src" ("http:" ++ getAttr iattrs "src") else iattrs)
        "width" "525") "height" "295", ?_, ?_, ?_, ?_⟩
    · simp only [cleanup_child]
      rw [if_neg hA, if_neg hB, if_pos hne, himp]
    · rw [getAttr_setAttr_ne _ _ _ _ (by decide), getAttr_setAttr_self]
    · rw [getAttr_setAttr_self]
    · rw [getAttr_setAttr_ne _ _ _ _ (by decide), getAttr_setAttr_ne _ _ _ _ (by decide)]
      by_cases hrel : pyStartsWith (getAttr iattrs "src") "//" = true
      · rw [if_pos hrel, if_pos hrel, getAttr_setAttr_self]
      · rw [if_neg hrel, if_neg hrel]
  · intro hnone
    simp only [cleanup_child]
    rw [if_neg hA, if_neg hB, if_pos hne, hnone]

/-- A concrete environment whose embed parser yields an iframe with a
protocol-relative source, for the C5 witness. -/
def env1 : Env :=
  ⟨true, fun _ => false,
   fun _ => DomNode.element "html" []
     [DomNode.element "head" [] [],
      DomNode.element "body" []
        [DomNode.element "iframe"
          [("src", "//youtube.com/embed/x"), ("width", "16"), ("height", "9")]
          [DomNode.text "t"]]]⟩

/-- Witness for C5: the concrete embed fragment is imported with forced
dimensions and an http-prefixed protocol-relative source. -/
theorem c5_witness :
    ∃ fattrs,
      cleanup_child env1 (.element "div" [("data-embed", "frag")] []) [] =
        .ok ([DomNode.element "iframe" fattrs []], [], 0) ∧
      getAttr fattrs "width" = "525" ∧
      getAttr fattrs "height" = "295" ∧
      getAttr fattrs "src" =
        (if pyStartsWith
            (getAttr [("src", "//youtube.com/embed/x"), ("width", "16"), ("height", "9")]
              "src") "//" = true then
          "http:" ++ getAttr [("src", "//youtube.com/embed/x"), ("width", "16"), ("height", "9")]
            "src"
        else
          getAttr [("src", "//youtube.com/embed/x"), ("width", "16"), ("height", "9")] "src") :=
  (c5_theorem env1 [] "div" [("data-embed", "frag")] []
    (by decide) (by decide) (by decide)).1
    (DomNode.element "body" []
      [DomNode.element "iframe"
        [("src", "//youtube.com/embed/x"), ("width", "16"), ("height", "9")]
        [DomNode.text "t"]])
    "iframe"
    [("src", "//youtube.com/embed/x"), ("width", "16"), ("height", "9")]
    [DomNode.text "t"] rfl rfl rfl

/-- Claim C9, counterexample: the bare label 2h-ago is rejected, not
resolved: crawler.py line 24 partitions on the Added separator, and a
label without it leaves an empty date string, which raises ValueError
at line 27 instead of returning the date. -/
theorem c9_counterexample :
    parse_quora_date 1583841600 "2h ago" =
      .error "does not appear to indicate when answer was added" ∧
    parse_quora_date 1583841600 "2h ago" ≠ .ok "2020-03-10" := by
  constructor
  · rfl
  · intro hcontra
    rw [show parse_quora_date 1583841600 "2h ago" =
        .error "does not appear to indicate when answer was added" from rfl] at hcontra
    exact Except.noConfusion hcontra

/-- Claim C9 (amended): with the required Added separator, the label
resolves: at the origin 1583841600 (2020-03-10T12:00:00Z) the label
Added-2h-ago yields 2020-03-10; and every label outside the recognized
grammar (including any label lacking the separator) raises ValueError —
the only failure the function can report — rather than any other
exception. -/
theorem c9_amended :
    parse_quora_date 1583841600 "Added 2h ago" = .ok "2020-03-10" ∧
    ∀ (origin : Int) (s : String), inGrammar s = false →
      ∃ msg, parse_quora_date origin s = .error msg := by
  constructor
  · rfl
  · intro origin s hng
    by_cases hD : pyStrip (String.mk (partitionTail s.data "Added ".data)) = ""
    · refine ⟨"does not appear to indicate when answer was added", ?_⟩
      simp only [parse_quora_date]
      rw [if_pos hD]
    · have hng' : ¬(pyStrip (String.mk (partitionTail s.data "Added ".data)) ≠ "" ∧
          (pyStrip (String.mk (partitionTail s.data "Added ".data)) = "just now" ∨
           (matchNumSuffix (pyStrip (String.mk (partitionTail s.data "Added ".data))).data
             "m ago".data).isSome = true ∨
           (matchNumSuffix (pyStrip (String.mk (partitionTail s.data "Added ".data))).data
             "h ago".data).isSome = true ∨
           days_of_week.contains (pyStrip (String.mk (partitionTail s.data "Added ".data))) =
             true ∨
           (matchDayMonth (pyStrip (String.mk
             (partitionTail s.data "Added ".data))).data).isSome = true ∨
           (matchDayMonthYear (pyStrip (String.mk
             (partitionTail s.data "Added ".data))).data).isSome = true ∨
           ((matchNumSuffix (pyStrip (String.mk (partitionTail s.data "Added ".data))).data
              "am".data).orElse (fun _ =>
                matchNumSuffix (pyStrip (String.mk (partitionTail s.data "Added ".data))).data
                  "pm".data)).isSome = true)) := by
        simpa [inGrammar, decide_eq_false_iff_not] using hng
      have hbig := not_and.mp hng' hD
      push_neg at hbig
      obtain ⟨hjn, hm1, hm2, hm3, hm4, hm5, hm6⟩ := hbig
      have e1 := Option.not_isSome_iff_eq_none.mp hm1
      have e2 := Option.not_isSome_iff_eq_none.mp hm2
      have e3 : days_of_week.contains
          (pyStrip (String.mk (partitionTail s.data "Added ".data))) = false := by
        simpa using hm3
      have e4 := Option.not_isSome_iff_eq_none.mp hm4
      have e5 := Option.not_isSome_iff_eq_none.mp hm5
      have e6 := Option.not_isSome_iff_eq_none.mp hm6
      refine ⟨"date could not be interpreted", ?_⟩
      simp only [parse_quora_date]
      rw [if_neg hD, if_neg (not_or.mpr ⟨hjn, hm6⟩)]
      simp only [e1, e2, e3, e4, e5]
      simp

/-- Witness for the amended C9: a label with the separator but outside
the grammar raises ValueError. -/
theorem c9_amended_witness :
    inGrammar "Added someday" = false ∧
    ∃ msg, parse_quora_date 0 "Added someday" = .error msg :=
  ⟨by decide, c9_amended.2 0 "Added someday" (by decide)⟩
